import Mathlib

/-!
Verification development for the IZZY AR overlay tracking pipeline.

The definitions below are a shallow embedding of the JavaScript sources
`src/transformationSmoothening.js` and `src/AROverlay.js`.  Matrices
(`cv.Mat` 3x3 homographies of doubles) are embedded as rational-valued
functions `Fin 3 → Fin 3 → ℚ`; JavaScript numbers that can be NaN
(division by zero) are embedded as `Option ℚ`; code paths that throw are
embedded as `Option` results.
-/

set_option maxRecDepth 4000


/-- A 3x3 homography matrix (`cv.Mat` with type `CV_64F`), embedded with
rational entries. -/
def Homography : Type := Fin 3 → Fin 3 → ℚ

instance : DecidableEq Homography :=
  inferInstanceAs (DecidableEq (Fin 3 → Fin 3 → ℚ))

/-- Elementwise scaling of a homography by a constant. -/
def scaleH (c : ℚ) (h : Homography) : Homography := fun i j => c * h i j

/-- The all-ones 3x3 matrix, used as a concrete sample input. -/
def onesH : Homography := fun _ _ => 1

/-- Sum of absolute elementwise differences, as computed by the loop in
`OutlierDetection.isOutlier` (`transformationSmoothening.js` lines 82-90). -/
def sumAbsDiff (a b : Homography) : ℚ :=
  ∑ i : Fin 3, ∑ j : Fin 3, |a i j - b i j|

/-- State of `OutlierDetection` (`transformationSmoothening.js` lines 69-73). -/
structure OutlierDetectionState where
  threshold : ℚ
  previousHomography : Option Homography

/-- `OutlierDetection.isOutlier` (`transformationSmoothening.js` lines 75-105):
returns the verdict and the updated detector state.  The first transform ever
seen becomes the reference and is not an outlier; afterwards a transform whose
summed absolute difference from the reference exceeds the threshold is an
outlier and leaves the reference unchanged, otherwise it becomes the new
reference. -/
def isOutlier (s : OutlierDetectionState) (h : Homography) :
    Bool × OutlierDetectionState :=
  match s.previousHomography with
  | none => (false, { s with previousHomography := some h })
  | some p =>
    if s.threshold < sumAbsDiff p h then (true, s)
    else (false, { s with previousHomography := some h })

/-- State of `SlidingWindowAveragingFilter`
(`transformationSmoothening.js` lines 27-31). -/
structure SlidingWindowState where
  windowSize : ℕ
  homographyBuffer : List Homography

/-- `SlidingWindowAveragingFilter.addHomography`
(`transformationSmoothening.js` lines 33-38): evicts the oldest buffer entry
once the buffer is full, then appends the new transform. -/
def slidingWindowAdd (s : SlidingWindowState) (h : Homography) :
    SlidingWindowState :=
  let buf :=
    if s.windowSize ≤ s.homographyBuffer.length then s.homographyBuffer.drop 1
    else s.homographyBuffer
  { s with homographyBuffer := buf ++ [h] }

/-- `SlidingWindowAveragingFilter.getAverageHomography`
(`transformationSmoothening.js` lines 40-67): `none` on an empty buffer,
otherwise the elementwise mean of the buffered matrices.  No normalization by
the bottom-right element is performed anywhere in the source. -/
def getAverageHomography (s : SlidingWindowState) : Option Homography :=
  if s.homographyBuffer = [] then none
  else
    some (fun i j =>
      (s.homographyBuffer.map (fun h => h i j)).sum /
        (s.homographyBuffer.length : ℚ))

/-- State of `ExponentialMovingAverageFilter`
(`transformationSmoothening.js` lines 107-111). -/
structure EmaState where
  alpha : ℚ
  emaHomography : Option Homography

/-- `ExponentialMovingAverageFilter.filter`
(`transformationSmoothening.js` lines 113-135): the first call seeds the EMA
with the input and returns it unchanged; later calls blend
`alpha * input + (1 - alpha) * previous` elementwise. -/
def emaApply (s : EmaState) (h : Homography) : Homography × EmaState :=
  match s.emaHomography with
  | none => (h, { s with emaHomography := some h })
  | some prev =>
    let sm : Homography := fun i j => s.alpha * h i j + (1 - s.alpha) * prev i j
    (sm, { s with emaHomography := some sm })

/-- State of `ComprehensiveSmoothnessFilter`
(`transformationSmoothening.js` lines 1-6). -/
structure ComprehensiveSmoothnessFilter where
  outlier : OutlierDetectionState
  window : SlidingWindowState
  ema : EmaState

/-- `ComprehensiveSmoothnessFilter.addHomography`
(`transformationSmoothening.js` lines 8-12): runs the outlier detector (which
updates its own reference in both branches as coded) and feeds the transform
to the sliding window only when it is not an outlier. -/
def addHomography (f : ComprehensiveSmoothnessFilter) (h : Homography) :
    ComprehensiveSmoothnessFilter :=
  let r := isOutlier f.outlier h
  if r.1 then { f with outlier := r.2 }
  else { f with outlier := r.2, window := slidingWindowAdd f.window h }

/-- `ComprehensiveSmoothnessFilter.getFilteredHomography`
(`transformationSmoothening.js` lines 14-25): window average, then EMA;
`none` while the window is empty. -/
def getFilteredHomography (f : ComprehensiveSmoothnessFilter) :
    Option Homography × ComprehensiveSmoothnessFilter :=
  match getAverageHomography f.window with
  | none => (none, f)
  | some avg =>
    let r := emaApply f.ema avg
    (some r.1, { f with ema := r.2 })

/-- A freshly constructed `ComprehensiveSmoothnessFilter` with window size W,
EMA weight and outlier threshold (constructor defaults 5, 0.1, 0.5). -/
def smootherInit (W : ℕ) (a t : ℚ) : ComprehensiveSmoothnessFilter :=
  ⟨⟨t, none⟩, ⟨W, []⟩, ⟨a, none⟩⟩

/-- One per-frame use of the smoother, as in the repository's (commented)
call sites: `addHomography` followed by `getFilteredHomography`. -/
def smootherStep (f : ComprehensiveSmoothnessFilter) (h : Homography) :
    Option Homography × ComprehensiveSmoothnessFilter :=
  getFilteredHomography (addHomography f h)

/-- Feed a whole sequence of raw transforms through the smoother and collect
the per-frame published outputs. -/
def smootherRun (f : ComprehensiveSmoothnessFilter) :
    List Homography → List (Option Homography)
  | [] => []
  | h :: t =>
    let r := smootherStep f h
    r.1 :: smootherRun r.2 t

/-- The scale-invariance property claimed for the smoother (with the source's
default parameters): rescaling every raw input matrix by the same nonzero
constant before filtering leaves every published output unchanged. -/
def smootherScaleInvariant : Prop :=
  ∀ c : ℚ, c ≠ 0 → ∀ hs : List Homography,
    smootherRun (smootherInit 5 (1/10) (1/2)) (hs.map (scaleH c)) =
      smootherRun (smootherInit 5 (1/10) (1/2)) hs

/-- A fresh smoother with the constructor's default parameters. -/
def c3SampleFresh : ComprehensiveSmoothnessFilter := smootherInit 5 (1/10) (1/2)

/-- A smoother state whose outlier reference is `onesH` and whose window
holds `onesH`. -/
def c3SampleSeen : ComprehensiveSmoothnessFilter :=
  ⟨⟨1/2, some onesH⟩, ⟨5, [onesH]⟩, ⟨1/10, none⟩⟩

/-- One forward candidate produced by `knnMatch(src, target, 2)`
(`AROverlay.js` lines 751-754): the best match's distance `d1`, the
second-best distance `d2`, and the best match's query/train indices.
The embedding models the code path in which every forward entry has two
neighbors, as `knnMatch` produces whenever the reference set has at least
two descriptors. -/
structure DMatchPair where
  d1 : ℚ
  d2 : ℚ
  queryIdx : ℕ
  trainIdx : ℕ
deriving DecidableEq

/-- Lowe's ratio test on a forward candidate (`AROverlay.js` line 763). -/
def ratioPass (threshold : ℚ) (c : DMatchPair) : Bool :=
  decide (c.d1 ≤ c.d2 * threshold)

/-- The hard-coded strong-match test feeding the quality score
(`AROverlay.js` line 758). -/
def strongPass (c : DMatchPair) : Bool :=
  decide (c.d1 ≤ c.d2 * (3/4))

/-- The cross-check (`AROverlay.js` lines 765-771): the reverse
nearest-neighbor list of the matched reference keypoint is nonempty and its
first entry's train index points back to the candidate's query index.  The
reverse table `rev` holds, for each reference keypoint, the train indices of
its reverse matches. -/
def crossCheckPass (rev : List (List ℕ)) (c : DMatchPair) : Bool :=
  (rev.getD c.trainIdx []).head? == some c.queryIdx

/-- Acceptance into `goodMatches` (`AROverlay.js` lines 763-773): ratio test
first, then the cross-check. -/
def acceptMatch (threshold : ℚ) (rev : List (List ℕ)) (c : DMatchPair) :
    Bool :=
  ratioPass threshold c && crossCheckPass rev c

/-- `ARFeatureMatcher.filterMatchesWithCrossCheck`
(`AROverlay.js` lines 723-785).  Result `none` embeds the exception path:
when a ratio-passing candidate's `trainIdx` is outside the reverse table,
`targetToSourceMatches.get(...)` yields `undefined`, `.size()` throws, and
the surrounding catch makes the whole call return no result.  Otherwise the
result carries the accepted matches in order and the quality score
`perfectMatchCount / totalForwardCandidates`, which is `none` (NaN from
`0 / 0` in JavaScript) when there are no forward candidates. -/
def filterMatchesWithCrossCheck (threshold : ℚ) (cands : List DMatchPair)
    (rev : List (List ℕ)) : Option (List DMatchPair × Option ℚ) :=
  if cands.any (fun c => ratioPass threshold c &&
      decide (rev.length ≤ c.trainIdx)) then none
  else
    some (cands.filter (acceptMatch threshold rev),
      if cands.length = 0 then none
      else some ((cands.countP strongPass : ℚ) / (cands.length : ℚ)))

/-- The claimed quality convention: on an empty forward-candidate set the
filter returns the quality score 0. -/
def emptyCandidatesQualityZero : Prop :=
  ∀ threshold : ℚ, ∀ rev : List (List ℕ),
    (filterMatchesWithCrossCheck threshold [] rev).map Prod.snd
      = some (some 0)

/-- `this.displayingThresholdQuality = 0.06` (`AROverlay.js` line 85). -/
def displayingThresholdQuality : ℚ := 6/100

/-- `this.qualityIndicatorFadeRange = 0.015` (`AROverlay.js` line 88). -/
def qualityIndicatorFadeRange : ℚ := 15/1000

/-- `this.qualityIndicatorMax` (`AROverlay.js` line 90). -/
def qualityIndicatorMax : ℚ :=
  displayingThresholdQuality + qualityIndicatorFadeRange

/-- `ARFeatureMatcher.calculateErrorMessageOpacity`
(`AROverlay.js` lines 833-850): 1 at or below the low threshold, 0 at or
above `qualityIndicatorMax`, otherwise a linear ramp clamped to [0, 1]. -/
def calculateErrorMessageOpacity (avgQ : ℚ) : ℚ :=
  if avgQ ≤ displayingThresholdQuality then 1
  else if qualityIndicatorMax ≤ avgQ then 0
  else
    min (max ((qualityIndicatorMax - avgQ) / qualityIndicatorFadeRange) 0) 1

/-- The overlay's rendering opacity (`AROverlay.js` lines 858-859):
`1 - errorMessageOpacity`. -/
def overlayOpacity (avgQ : ℚ) : ℚ := 1 - calculateErrorMessageOpacity avgQ

/-- The indicator opacity exactly as the spec words it: 1 at or below the
low threshold, 0 at or above threshold + fade range, and the unclamped
linear ramp strictly in between. -/
def indicatorOpacitySpec (avgQ : ℚ) : ℚ :=
  if avgQ ≤ displayingThresholdQuality then 1
  else if qualityIndicatorMax ≤ avgQ then 0
  else (qualityIndicatorMax - avgQ) / qualityIndicatorFadeRange

/-- `this.targetFrameRate = 10` (`AROverlay.js` line 93). -/
def targetFrameRate : ℚ := 10

/-- `this.minProcessingCanvasWidth = 250` (`AROverlay.js` line 96). -/
def minProcessingCanvasWidth : ℤ := 250

/-- `this.processingCanvasWidthStep = 20` (`AROverlay.js` line 97). -/
def processingCanvasWidthStep : ℤ := 20

/-- `this.initialProcessingCanvasWidth = 100` (`AROverlay.js` line 75),
copied into `currentProcessingCanvasWidth` by the constructor (line 139). -/
def initialProcessingCanvasWidth : ℤ := 100

/-- The measured instantaneous frame rate (`AROverlay.js` line 594):
`1000 / elapsedMs`. -/
def frameRateOf (elapsedMs : ℚ) : ℚ := 1000 / elapsedMs

/-- The per-frame width adjustment (`AROverlay.js` lines 598-608): below the
target rate the width shrinks by one step, floored at the minimum width;
above the target it grows by one step with no upper bound; at the target it
is unchanged. -/
def adjustedWidth (currentFrameRate : ℚ) (w : ℤ) : ℤ :=
  if currentFrameRate < targetFrameRate then
    max (w - processingCanvasWidthStep) minProcessingCanvasWidth
  else if targetFrameRate < currentFrameRate then
    w + processingCanvasWidthStep
  else w

/-- Observable render history: the transform last used to draw the overlay
(`applyOverlay`, `AROverlay.js` lines 853-892), or `none` if no overlay has
ever been drawn. -/
structure RenderState where
  lastOverlay : Option Homography
deriving DecidableEq

/-- `ARFeatureMatcher.calculateTransformationAndOverlay`
(`AROverlay.js` lines 788-831), with the external RANSAC solver's answer
passed in as `solverResult` (`none` embeds an empty homography).  With fewer
than 5 good matches or an average quality below the display threshold the
method returns before computing any homography and draws nothing; otherwise
it draws the solver's transform when the solver produced one.  The first
component is the transform used for the overlay this frame (`none` = no
overlay drawn). -/
def frameRender (s : RenderState) (goodMatchCount : ℕ) (avgQ : ℚ)
    (solverResult : Option Homography) : Option Homography × RenderState :=
  if goodMatchCount < 5 ∨ avgQ < displayingThresholdQuality then (none, s)
  else
    match solverResult with
    | none => (none, s)
    | some h => (some h, ⟨some h⟩)

/-- The claimed reuse behavior: on a frame with exactly 4 correspondences the
previously published transform, when one exists, is used again for
rendering. -/
def insufficientEvidenceReusesPrevious : Prop :=
  ∀ (s : RenderState) (avgQ : ℚ) (solverResult : Option Homography)
    (p : Homography), s.lastOverlay = some p →
      (frameRender s 4 avgQ solverResult).1 = some p

/-- `this.nFramesForAveraging = 6` (`AROverlay.js` line 99). -/
def nFramesForAveraging : ℕ := 6

/-- The quality tracker's cross-frame state: `this.qualityHistory` and
`this.averageQualityIndicator` (`AROverlay.js` lines 100-101). -/
structure QualityState where
  qualityHistory : List ℚ
  averageQualityIndicator : ℚ
deriving DecidableEq

/-- The history update inside `detectFeaturesAndMatch`
(`AROverlay.js` lines 697-707): push the new score, evict the oldest entry
beyond `nFramesForAveraging`, and recompute the rolling mean. -/
def qualityPush (q : ℚ) (s : QualityState) : QualityState :=
  let hist1 := s.qualityHistory ++ [q]
  let hist2 := if nFramesForAveraging < hist1.length then hist1.drop 1 else hist1
  ⟨hist2, hist2.sum / (hist2.length : ℚ)⟩

/-- `ARFeatureMatcher.detectFeaturesAndMatch` restricted to its cross-frame
effect (`AROverlay.js` lines 682-712): the quality history and rolling
average are touched only when both the reference descriptors and the current
frame's descriptors are nonempty. -/
def detectFeaturesAndMatch (referenceDescriptorsEmpty : Bool)
    (frameDescriptorsEmpty : Bool) (q : ℚ) (s : QualityState) : QualityState :=
  if !referenceDescriptorsEmpty && !frameDescriptorsEmpty then qualityPush q s
  else s

/-- The cross-frame state of `ARFeatureMatcher` that the per-tick handler
mutates: the `processing` guard (`AROverlay.js` line 132), the processing
canvas width (line 139), the quality tracker's state (lines 100-101), and
the render history. -/
structure PipelineState where
  processing : Bool
  currentProcessingCanvasWidth : ℤ
  quality : QualityState
  render : RenderState
deriving DecidableEq

/-- The per-frame external data consumed by one call of
`captureAndProcessFrame`: the elapsed time since the last frame, emptiness
of the two descriptor sets, the frame's quality score and good-match count
from the correspondence filter, the solver's answer, and — for the error
path — `throwAfter = some k` meaning an exception is thrown after the first
`k` stages. -/
structure FrameInput where
  elapsedMs : ℚ
  referenceDescriptorsEmpty : Bool
  frameDescriptorsEmpty : Bool
  qualityScore : ℚ
  goodMatchCount : ℕ
  solverResult : Option Homography
  throwAfter : Option ℕ

/-- The resolution-adjustment stage of `captureAndProcessFrame`
(`AROverlay.js` lines 592-624). -/
def resolutionStage (inp : FrameInput) (s : PipelineState) : PipelineState :=
  { s with currentProcessingCanvasWidth := adjustedWidth (frameRateOf inp.elapsedMs) s.currentProcessingCanvasWidth }

/-- The detect-and-match stage (`AROverlay.js` line 647). -/
def detectStage (inp : FrameInput) (s : PipelineState) : PipelineState :=
  { s with quality := detectFeaturesAndMatch inp.referenceDescriptorsEmpty inp.frameDescriptorsEmpty inp.qualityScore s.quality }

/-- The transformation-and-overlay stage (`AROverlay.js` line 659), which
reads the average quality just updated by the detect stage. -/
def renderStage (inp : FrameInput) (s : PipelineState) : PipelineState :=
  { s with render := (frameRender s.render inp.goodMatchCount s.quality.averageQualityIndicator inp.solverResult).2 }

/-- The body of `captureAndProcessFrame` between setting and clearing the
`processing` guard, as the ordered list of its stages. -/
def frameStages (inp : FrameInput) : List (PipelineState → PipelineState) :=
  [resolutionStage inp, detectStage inp, renderStage inp]

/-- `ARFeatureMatcher.captureAndProcessFrame` (`AROverlay.js` lines 586-666):
if a frame is still in flight the call returns at once and changes nothing;
otherwise the guard is set and the stages run.  On the normal path the guard
is cleared at the end (line 661).  When the body throws after a prefix of
its stages, the catch (lines 662-665) first calls `logError`, and `logError`
(lines 2-11) dereferences `document.getElementById('ErrorLog')` with no null
guard; no page of the repository defines an `ErrorLog` element, so that call
returns null, `logError` itself throws a TypeError, and the catch never
reaches its `this.processing = false` (line 664): on the error path the
guard stays set and the escaping exception also skips the
`requestAnimationFrame` reschedule in `startProcessing` (line 577). -/
def captureAndProcessFrame (inp : FrameInput) (s : PipelineState) :
    PipelineState :=
  if s.processing then s
  else
    let s1 := { s with processing := true }
    match inp.throwAfter with
    | none =>
      let s2 := (frameStages inp).foldl (fun st f => f st) s1
      { s2 with processing := false }
    | some k => ((frameStages inp).take k).foldl (fun st f => f st) s1

/-- A frame input used by concrete witnesses: 100 ms elapsed, nonempty
descriptors, a mid quality score, 4 matches, no solver answer, and an
exception after the first stage. -/
def sampleInput : FrameInput := ⟨100, false, false, 1/2, 4, none, some 1⟩

/-- A concrete idle pipeline state. -/
def sampleIdleState : PipelineState := ⟨false, 300, ⟨[], 0⟩, ⟨none⟩⟩

/-- The pipeline state right after the `ARFeatureMatcher` constructor ran
(`AROverlay.js` lines 100-139): not processing, width 100, empty quality
history with average 0, and no overlay ever drawn. -/
def initialPipelineState : PipelineState :=
  ⟨false, initialProcessingCanvasWidth, ⟨[], 0⟩, ⟨none⟩⟩

/-- A pipeline state reachable from the initial state by some sequence of
per-tick calls. -/
def ReachableState (s : PipelineState) : Prop :=
  ∃ inps : List FrameInput,
    s = inps.foldl (fun st i => captureAndProcessFrame i st)
      initialPipelineState

/-- The claimed lifetime invariant: the processing width never falls below
`minProcessingCanvasWidth`, including in the initial state. -/
def widthAlwaysAtLeastMin : Prop :=
  ∀ s : PipelineState, ReachableState s →
    minProcessingCanvasWidth ≤ s.currentProcessingCanvasWidth

theorem smootherStep_fresh (W : ℕ) (a t : ℚ) (g : Homography) :
    (smootherStep (smootherInit W a t) g).1 = some g := by
  have h1 : addHomography (smootherInit W a t) g =
      ⟨⟨t, some g⟩, ⟨W, [g]⟩, ⟨a, none⟩⟩ := by
    simp [addHomography, isOutlier, smootherInit, slidingWindowAdd]
  rw [smootherStep, h1]
  simp only [getFilteredHomography, getAverageHomography, emaApply]
  norm_num

/-- C1 (counterexample): the smoother is not scale invariant.  No stage of
`transformationSmoothening.js` normalizes by the bottom-right element, so
feeding the single input `2 * onesH` publishes `2 * onesH` while feeding
`onesH` publishes `onesH`. -/
theorem c1_smoother_not_scale_invariant : ¬ smootherScaleInvariant := by
  intro hcl
  have h := hcl 2 (by norm_num) [onesH]
  simp only [List.map_cons, List.map_nil, smootherRun] at h
  rw [smootherStep_fresh, smootherStep_fresh] at h
  simp only [List.cons.injEq, Option.some.injEq, and_true] at h
  have h2 := congrFun (congrFun h 0) 0
  norm_num [scaleH, onesH] at h2

/-- C1: amended.  The smoother performs no normalization, so its output
scales with its input instead of being invariant: from a fresh filter, the
first published output for input `c * g` is `c` times the first published
output for input `g` (namely `c * g` itself), for every constant `c` and
every parameter choice. -/
theorem c1_smoother_output_scales_with_input (c : ℚ) (g : Homography)
    (W : ℕ) (a t : ℚ) :
    (smootherStep (smootherInit W a t) (scaleH c g)).1 =
      Option.map (scaleH c) (smootherStep (smootherInit W a t) g).1 := by
  rw [smootherStep_fresh, smootherStep_fresh]
  rfl

/-- C3: outlier rejection of the smoother.  The very first transform is
always accepted, becomes the reference, and is added to the sliding window;
afterwards a transform whose summed absolute elementwise difference from the
reference exceeds the threshold is rejected with the whole filter state
(window and reference) unchanged, and otherwise it is accepted, appended to
the window, and becomes the new reference. -/
theorem c3_addHomography_outlier_rejection
    (f : ComprehensiveSmoothnessFilter) (h : Homography) :
    (f.outlier.previousHomography = none →
        addHomography f h =
          { f with outlier := ⟨f.outlier.threshold, some h⟩,
                   window := slidingWindowAdd f.window h }) ∧
    (∀ p, f.outlier.previousHomography = some p →
      (f.outlier.threshold < sumAbsDiff p h → addHomography f h = f) ∧
      (¬ f.outlier.threshold < sumAbsDiff p h →
          addHomography f h =
            { f with outlier := ⟨f.outlier.threshold, some h⟩,
                     window := slidingWindowAdd f.window h })) := by
  obtain ⟨⟨t, prev⟩, w, e⟩ := f
  refine ⟨?_, ?_⟩
  · intro hnone
    simp only at hnone
    subst hnone
    rfl
  · intro p hp
    simp only at hp
    subst hp
    refine ⟨?_, ?_⟩
    · intro hgt
      simp [addHomography, isOutlier, hgt]
    · intro hle
      simp [addHomography, isOutlier, hle]

/-- C3 witness: the first-ever transform is accepted by a fresh filter, and a
far-away transform (summed absolute difference 72 > 1/2) is rejected leaving
the state unchanged. -/
theorem c3_addHomography_outlier_rejection_witness :
    addHomography c3SampleFresh onesH =
      { c3SampleFresh with
          outlier := ⟨c3SampleFresh.outlier.threshold, some onesH⟩,
          window := slidingWindowAdd c3SampleFresh.window onesH } ∧
    addHomography c3SampleSeen (scaleH 9 onesH) = c3SampleSeen :=
  ⟨(c3_addHomography_outlier_rejection c3SampleFresh onesH).1 rfl,
   ((c3_addHomography_outlier_rejection c3SampleSeen (scaleH 9 onesH)).2
      onesH rfl).1
     (by norm_num [c3SampleSeen, sumAbsDiff, onesH, scaleH,
           Fin.sum_univ_three])⟩

/-- C2 (counterexample): with zero forward candidates the filter computes
`0 / 0`, which is NaN in JavaScript (embedded as `none`), not the number 0. -/
theorem c2_empty_candidates_quality_is_nan : ¬ emptyCandidatesQualityZero := by
  intro hcl
  have h := hcl (3/4) []
  simp [filterMatchesWithCrossCheck] at h

/-- C2: amended.  Whenever the candidate set is nonempty and the filter
returns a result, the quality score is a number in [0, 1]; on an empty
candidate set the quality score is NaN (`none`), not 0. -/
theorem c2_qualityScore_in_unit_interval (threshold : ℚ)
    (cands : List DMatchPair) (rev : List (List ℕ))
    (good : List DMatchPair) (q : Option ℚ)
    (hne : cands ≠ [])
    (hres : filterMatchesWithCrossCheck threshold cands rev = some (good, q)) :
    ∃ r : ℚ, q = some r ∧ 0 ≤ r ∧ r ≤ 1 := by
  rw [filterMatchesWithCrossCheck] at hres
  split at hres
  · exact absurd hres (by simp)
  · have hlen : cands.length ≠ 0 := fun h0 =>
      hne (List.length_eq_zero.mp h0)
    simp only [Option.some.injEq, Prod.mk.injEq] at hres
    refine ⟨(cands.countP strongPass : ℚ) / (cands.length : ℚ), ?_, ?_, ?_⟩
    · rw [← hres.2, if_neg hlen]
    · positivity
    · rw [div_le_one (by exact_mod_cast Nat.pos_of_ne_zero hlen)]
      exact_mod_cast List.countP_le_length strongPass

/-- C2 witness: a single decisive candidate (distances 1 and 2) yields the
quality score 1/1, which the amended theorem places in [0, 1]. -/
theorem c2_qualityScore_in_unit_interval_witness :
    ∃ r : ℚ, (some ((1 : ℚ) / 1) : Option ℚ) = some r ∧ 0 ≤ r ∧ r ≤ 1 :=
  c2_qualityScore_in_unit_interval (3/4) [⟨1, 2, 0, 0⟩] [[0]]
    (List.filter (acceptMatch (3/4) [[0]]) [⟨1, 2, 0, 0⟩])
    (some ((1 : ℚ) / 1)) (by simp)
    (by norm_num [filterMatchesWithCrossCheck, ratioPass, strongPass,
          List.any_cons, List.countP_cons, List.countP_nil])

/-- C7: membership in the filtered match set.  Provided no ratio-passing
candidate indexes outside the reverse table (so the filter does not throw),
the filter returns a result, and a candidate's best match appears in
`goodMatches` exactly when it passes Lowe's ratio test and the reverse
nearest neighbor of its matched reference keypoint points back to its query
index; a candidate failing either check does not appear. -/
theorem c7_filter_membership (threshold : ℚ) (cands : List DMatchPair)
    (rev : List (List ℕ)) (c : DMatchPair)
    (hc : c ∈ cands)
    (hidx : ∀ c' ∈ cands, c'.d1 ≤ c'.d2 * threshold →
      c'.trainIdx < rev.length) :
    ∃ good q,
      filterMatchesWithCrossCheck threshold cands rev = some (good, q) ∧
        (c ∈ good ↔
          c.d1 ≤ c.d2 * threshold ∧
            (rev.getD c.trainIdx []).head? = some c.queryIdx) := by
  have hany : (cands.any fun c' => ratioPass threshold c' &&
      decide (rev.length ≤ c'.trainIdx)) = false := by
    rw [List.any_eq_false]
    intro c' hc'
    simp only [Bool.and_eq_true, ratioPass, decide_eq_true_eq, not_and]
    intro h1 h2
    exact absurd (hidx c' hc' h1) (not_lt.mpr h2)
  refine ⟨cands.filter (acceptMatch threshold rev),
    (if cands.length = 0 then none
      else some ((cands.countP strongPass : ℚ) / (cands.length : ℚ))),
    ?_, ?_⟩
  · simp [filterMatchesWithCrossCheck, hany]
  · rw [List.mem_filter]
    simp only [hc, true_and, acceptMatch, ratioPass, crossCheckPass,
      Bool.and_eq_true, decide_eq_true_eq, beq_iff_eq]

/-- C7 witness: the candidate with distances 1 and 2 passes the ratio test,
its reverse entry points back, and it appears in the filtered set. -/
theorem c7_filter_membership_witness :
    ∃ good q,
      filterMatchesWithCrossCheck (3/4) [⟨1, 2, 0, 0⟩] [[0]]
          = some (good, q) ∧
        ((⟨1, 2, 0, 0⟩ : DMatchPair) ∈ good ↔
          (1 : ℚ) ≤ 2 * (3/4) ∧
            (([[0]] : List (List ℕ)).getD 0 []).head? = some 0) :=
  c7_filter_membership (3/4) [⟨1, 2, 0, 0⟩] [[0]] ⟨1, 2, 0, 0⟩
    (by simp)
    (by rintro c' hc' h1
        simp only [List.mem_singleton] at hc'
        subst hc'
        norm_num)

/-- C4: the indicator opacity is the claimed piecewise-linear function of the
average quality (the code's clamp is the identity strictly inside the fade
range), at the exact midpoint of the fade range (0.0675) it equals 0.5, and
the overlay is rendered with opacity one minus the indicator opacity. -/
theorem c4_indicator_opacity_piecewise (q : ℚ) :
    calculateErrorMessageOpacity q = indicatorOpacitySpec q ∧
    calculateErrorMessageOpacity (675/10000) = 1/2 ∧
    overlayOpacity q = 1 - calculateErrorMessageOpacity q := by
  refine ⟨?_, ?_, rfl⟩
  · by_cases h1 : q ≤ displayingThresholdQuality
    · simp [calculateErrorMessageOpacity, indicatorOpacitySpec, h1]
    · by_cases h2 : qualityIndicatorMax ≤ q
      · simp [calculateErrorMessageOpacity, indicatorOpacitySpec, h1, h2]
      · have hq1 : displayingThresholdQuality < q := not_le.mp h1
        have hq2 : q < qualityIndicatorMax := not_le.mp h2
        have hfade : (0:ℚ) < qualityIndicatorFadeRange := by
          norm_num [qualityIndicatorFadeRange]
        have hx0 : 0 ≤ (qualityIndicatorMax - q) / qualityIndicatorFadeRange :=
          le_of_lt (div_pos (by linarith) hfade)
        have hx1 : (qualityIndicatorMax - q) / qualityIndicatorFadeRange ≤ 1 := by
          rw [div_le_one hfade]
          have hmf : qualityIndicatorMax - displayingThresholdQuality
              = qualityIndicatorFadeRange := by
            norm_num [qualityIndicatorMax]
          linarith
        simp [calculateErrorMessageOpacity, indicatorOpacitySpec, h1, h2,
          max_eq_left hx0, min_eq_left hx1]
  · norm_num [calculateErrorMessageOpacity, displayingThresholdQuality,
      qualityIndicatorMax, qualityIndicatorFadeRange]

/-- C5: the adaptive-resolution step.  When the measured rate `1000/e` is
below the target the next width is `max (w - step) minWidth`; when it is
above, the next width is `w + step` with no upper bound; and with measured
5 fps (elapsed 200 ms), target 10, width 300, step 20, minimum 250 the next
width is 280. -/
theorem c5_adaptive_resolution_step (e : ℚ) (w : ℤ) :
    (frameRateOf e < targetFrameRate →
        adjustedWidth (frameRateOf e) w
          = max (w - processingCanvasWidthStep) minProcessingCanvasWidth) ∧
    (targetFrameRate < frameRateOf e →
        adjustedWidth (frameRateOf e) w = w + processingCanvasWidthStep) ∧
    adjustedWidth (frameRateOf 200) 300 = 280 := by
  refine ⟨fun hlt => ?_, fun hgt => ?_, ?_⟩
  · rw [adjustedWidth, if_pos hlt]
  · rw [adjustedWidth, if_neg (not_lt.mpr (le_of_lt hgt)), if_pos hgt]
  · have h5 : frameRateOf 200 = 5 := by norm_num [frameRateOf]
    rw [adjustedWidth, h5]
    norm_num [targetFrameRate, processingCanvasWidthStep,
      minProcessingCanvasWidth]

/-- C5 witness: at elapsed 200 ms (5 fps) and width 300 the theorem's
below-target branch gives `max (300 - 20) 250`, and its scenario conjunct
gives 280. -/
theorem c5_adaptive_resolution_step_witness :
    adjustedWidth (frameRateOf 200) 300
        = max (300 - processingCanvasWidthStep) minProcessingCanvasWidth ∧
      adjustedWidth (frameRateOf 200) 300 = 280 :=
  ⟨(c5_adaptive_resolution_step 200 300).1
      (by norm_num [frameRateOf, targetFrameRate]),
   (c5_adaptive_resolution_step 200 300).2.2⟩

/-- C6 (counterexample): the code reuses nothing.  On a 4-match frame the
method returns early and no overlay at all is drawn, even when an earlier
frame had published a transform. -/
theorem c6_no_reuse_of_previous_transform :
    ¬ insufficientEvidenceReusesPrevious := by
  intro hcl
  have h := hcl ⟨some onesH⟩ 1 none onesH rfl
  simp [frameRender] at h

/-- C6: amended.  On every frame with fewer than 5 filtered correspondences
or an average quality below the acceptance threshold, no homography is
computed, no overlay is drawn, and the render state is left unchanged (the
code keeps no previous smoothed transform to reuse: the smoothing filter is
not connected to this render path). -/
theorem c6_insufficient_evidence_no_transform (s : RenderState)
    (goodMatchCount : ℕ) (avgQ : ℚ) (solverResult : Option Homography)
    (hgate : goodMatchCount < 5 ∨ avgQ < displayingThresholdQuality) :
    frameRender s goodMatchCount avgQ solverResult = (none, s) := by
  rw [frameRender.eq_def, if_pos hgate]

/-- C6 witness: a 4-correspondence frame (with high quality and a solver
answer available) draws nothing and changes nothing. -/
theorem c6_insufficient_evidence_no_transform_witness :
    frameRender ⟨some onesH⟩ 4 1 (some onesH) = (none, ⟨some onesH⟩) :=
  c6_insufficient_evidence_no_transform ⟨some onesH⟩ 4 1 (some onesH)
    (Or.inl (by norm_num))

/-- C10: on every frame where the current frame's descriptors or the
reference descriptors are empty, the quality history and rolling average are
left completely unchanged, and the indicator opacity for that frame is
computed from the stale average of earlier frames. -/
theorem c10_empty_descriptors_keep_quality_state
    (referenceDescriptorsEmpty frameDescriptorsEmpty : Bool) (q : ℚ)
    (s : QualityState)
    (hempty : referenceDescriptorsEmpty = true ∨ frameDescriptorsEmpty = true) :
    detectFeaturesAndMatch referenceDescriptorsEmpty frameDescriptorsEmpty q s
        = s ∧
      calculateErrorMessageOpacity
          (detectFeaturesAndMatch referenceDescriptorsEmpty
              frameDescriptorsEmpty q s).averageQualityIndicator
        = calculateErrorMessageOpacity s.averageQualityIndicator := by
  have hs : detectFeaturesAndMatch referenceDescriptorsEmpty
      frameDescriptorsEmpty q s = s := by
    rcases hempty with he | he <;> rw [detectFeaturesAndMatch, he] <;> simp
  exact ⟨hs, by rw [hs]⟩

/-- C10 witness: an empty-frame-descriptor frame leaves a concrete quality
state untouched and keeps its stale opacity. -/
theorem c10_empty_descriptors_keep_quality_state_witness :
    detectFeaturesAndMatch false true (1/2) ⟨[1/10], 1/10⟩ = ⟨[1/10], 1/10⟩ ∧
      calculateErrorMessageOpacity
          (detectFeaturesAndMatch false true (1/2)
              ⟨[1/10], 1/10⟩).averageQualityIndicator
        = calculateErrorMessageOpacity (1/10) :=
  c10_empty_descriptors_keep_quality_state false true (1/2) ⟨[1/10], 1/10⟩
    (Or.inr rfl)

/-- C9 (code bug): evaluating the handler at the failing input.  A call on
an idle pipeline state whose body throws after its first stage leaves the
`processing` flag stuck at `true`: the catch's own `logError` call throws on
the missing `ErrorLog` element before `this.processing = false` runs.  This
contradicts the claim (and the evident intent of lines 5 and 664) that the
flag is false again after every call and that a failed frame never stalls
the loop. -/
theorem c9_failed_frame_leaves_flag_stuck :
    (captureAndProcessFrame sampleInput sampleIdleState).processing = true :=
  rfl

/-- C8 (counterexample): the invariant fails at the initial state, which is
reachable (by the empty call sequence) and has width 100 < 250. -/
theorem c8_initial_width_below_min : ¬ widthAlwaysAtLeastMin := by
  intro hcl
  have h := hcl initialPipelineState ⟨[], rfl⟩
  norm_num [initialPipelineState, initialProcessingCanvasWidth,
    minProcessingCanvasWidth] at h

theorem adjustedWidth_lower_bound (r : ℚ) (w : ℤ)
    (hw : min initialProcessingCanvasWidth minProcessingCanvasWidth ≤ w) :
    min initialProcessingCanvasWidth minProcessingCanvasWidth
      ≤ adjustedWidth r w := by
  rw [adjustedWidth]
  split
  · exact le_trans (min_le_right _ _) (le_max_right _ _)
  · split
    · have : (0:ℤ) ≤ processingCanvasWidthStep := by
        norm_num [processingCanvasWidthStep]
      omega
    · exact hw

theorem captureAndProcessFrame_width_lower_bound (inp : FrameInput)
    (s : PipelineState)
    (hw : min initialProcessingCanvasWidth minProcessingCanvasWidth
      ≤ s.currentProcessingCanvasWidth) :
    min initialProcessingCanvasWidth minProcessingCanvasWidth
      ≤ (captureAndProcessFrame inp s).currentProcessingCanvasWidth := by
  rw [captureAndProcessFrame.eq_def]
  split
  · exact hw
  · rcases inp.throwAfter with _ | k
    · simpa [frameStages, resolutionStage, detectStage, renderStage]
        using adjustedWidth_lower_bound (frameRateOf inp.elapsedMs)
          s.currentProcessingCanvasWidth hw
    · match k with
      | 0 => simpa [frameStages] using hw
      | 1 =>
        simpa [frameStages, resolutionStage]
          using adjustedWidth_lower_bound (frameRateOf inp.elapsedMs)
            s.currentProcessingCanvasWidth hw
      | 2 =>
        simpa [frameStages, resolutionStage, detectStage]
          using adjustedWidth_lower_bound (frameRateOf inp.elapsedMs)
            s.currentProcessingCanvasWidth hw
      | (n + 3) =>
        simpa [frameStages, resolutionStage, detectStage, renderStage]
          using adjustedWidth_lower_bound (frameRateOf inp.elapsedMs)
            s.currentProcessingCanvasWidth hw

theorem foldl_width_lower_bound (inps : List FrameInput) (s : PipelineState)
    (hw : min initialProcessingCanvasWidth minProcessingCanvasWidth
      ≤ s.currentProcessingCanvasWidth) :
    min initialProcessingCanvasWidth minProcessingCanvasWidth
      ≤ (inps.foldl (fun st i => captureAndProcessFrame i st)
          s).currentProcessingCanvasWidth := by
  induction inps generalizing s with
  | nil => exact hw
  | cons i t ih =>
    exact ih _ (captureAndProcessFrame_width_lower_bound i s hw)

/-- C8: amended.  The invariant that actually holds over the whole lifetime
is `width >= min(initialWidth, minProcessingWidth) = 100`: the initial width
(100) is below `minProcessingCanvasWidth` (250), and only the below-target
branch of the adjustment clamps up to 250, so the width can stay below 250
while the frame rate stays at or above target. -/
theorem c8_width_at_least_min_of_initial_and_floor (s : PipelineState)
    (hs : ReachableState s) :
    min initialProcessingCanvasWidth minProcessingCanvasWidth
      ≤ s.currentProcessingCanvasWidth := by
  obtain ⟨inps, rfl⟩ := hs
  exact foldl_width_lower_bound inps initialPipelineState
    (by norm_num [initialPipelineState, initialProcessingCanvasWidth,
      minProcessingCanvasWidth])

/-- C8 witness: the initial state satisfies the amended bound. -/
theorem c8_width_witness :
    min initialProcessingCanvasWidth minProcessingCanvasWidth
      ≤ initialPipelineState.currentProcessingCanvasWidth :=
  c8_width_at_least_min_of_initial_and_floor initialPipelineState ⟨[], rfl⟩

